import Mathlib

/-!
Shallow embedding of the NovaChain backend's ledger and settlement core
(routes/trade.js, routes/withdrawal.js, routes/deposit.js, routes/earn.js,
routes/convert.js, routes/admin.js), with money modelled as exact rationals.

A database state is a record of row lists mirroring the Postgres tables
(`user_balances`, `earn_wallet`, `withdrawals`, `deposits`, `trades`,
`user_trade_modes`, the `settings` TRADE_MODE row, `balance_history`,
`conversions`).  SQL first-row reads (`rows[0]`) are first-match lookups,
`UPDATE ... WHERE user_id AND coin` maps over all matching rows, and
`INSERT ... ON CONFLICT DO UPDATE` is an upsert.
-/

/-! ## Definitions: ledger primitives, data model, and route handlers -/

/-- One row of the `user_balances` (or `earn_wallet`) table. -/
structure BalanceRow where
  user_id : Nat
  coin : String
  balance : ℚ
deriving DecidableEq, Repr

/-- `SELECT balance ... WHERE user_id = u AND coin = c` read as
`rows[0]?.balance || 0`: the first matching row's balance, `0` when absent. -/
def getBal : List BalanceRow → Nat → String → ℚ
  | [], _, _ => 0
  | r :: rs, u, c => if r.user_id = u ∧ r.coin = c then r.balance else getBal rs u c

/-- Whether a `(user_id, coin)` balance row exists (`rows[0]` truthiness). -/
def hasBal : List BalanceRow → Nat → String → Bool
  | [], _, _ => false
  | r :: rs, u, c => if r.user_id = u ∧ r.coin = c then true else hasBal rs u c

/-- `UPDATE user_balances SET balance = balance + d WHERE user_id = u AND coin = c`. -/
def addBal (rows : List BalanceRow) (u : Nat) (c : String) (d : ℚ) : List BalanceRow :=
  rows.map fun r =>
    if r.user_id = u ∧ r.coin = c then { r with balance := r.balance + d } else r

/-- `INSERT INTO user_balances ... ON CONFLICT (user_id, coin) DO UPDATE
SET balance = balance + d`. -/
def upsertBal (rows : List BalanceRow) (u : Nat) (c : String) (d : ℚ) : List BalanceRow :=
  if hasBal rows u c then addBal rows u c d else rows ++ [⟨u, c, d⟩]

/-- All stored balances are non-negative. -/
def NonNegBal (rows : List BalanceRow) : Prop := ∀ r ∈ rows, 0 ≤ r.balance

instance : DecidablePred NonNegBal := fun rows => by
  unfold NonNegBal
  infer_instance

/-- The database's unique constraint on `(user_id, coin)` (required by the
source's `ON CONFLICT (user_id, coin)` clauses). -/
def keysNodup (rows : List BalanceRow) : Prop :=
  (rows.map fun r => (r.user_id, r.coin)).Nodup

instance : DecidablePred keysNodup := fun rows => by
  unfold keysNodup
  infer_instance

/-- `Number(x.toFixed(d))`: round to `d` decimal places, half away from zero
idealized as half-up (all concrete cases below are tie-free). -/
def toFixedQ (d : Nat) (x : ℚ) : ℚ :=
  ((⌊x * 10 ^ d + 1 / 2⌋ : ℤ) : ℚ) / 10 ^ d

/-- Deposit/withdrawal request status (`pending | approved | rejected`). -/
inductive ReqStatus
  | pending
  | approved
  | rejected
deriving DecidableEq, Repr

/-- Trade direction after `normalizeDirection` (`BUY`/`SELL`). -/
inductive Direction
  | BUY
  | SELL
deriving DecidableEq, Repr

/-- Trade result column (`PENDING | WIN | LOSE`). -/
inductive TradeResult
  | PENDING
  | WIN
  | LOSE
deriving DecidableEq, Repr

/-- One row of the `withdrawals` table. -/
structure WithdrawalRow where
  id : Nat
  user_id : Nat
  coin : String
  amount : ℚ
  address : String
  status : ReqStatus
deriving DecidableEq, Repr

/-- One row of the `deposits` table. -/
structure DepositRow where
  id : Nat
  user_id : Nat
  coin : String
  amount : ℚ
  status : ReqStatus
deriving DecidableEq, Repr

/-- One row of the `trades` table. -/
structure TradeRow where
  id : Nat
  user_id : Nat
  symbol : String
  direction : Direction
  amount : ℚ
  duration : ℚ
  start_price : ℚ
  result : TradeResult
  profit : ℚ
  result_price : Option ℚ
deriving DecidableEq, Repr

/-- One row of the `balance_history` table (timestamp omitted). -/
structure HistoryRow where
  user_id : Nat
  coin : String
  balance : ℚ
  price_usd : ℚ
deriving DecidableEq, Repr

/-- One row of the `conversions` table. -/
structure ConversionRow where
  user_id : Nat
  from_coin : String
  to_coin : String
  amount : ℚ
  received : ℚ
  rate : ℚ
deriving DecidableEq, Repr

/-- The database state shared by all routes. `globalMode` is the
`settings` row with key `TRADE_MODE` (absent row ⟹ `AUTO` default);
`userModes` is the `user_trade_modes` table. -/
structure DB where
  users : List Nat
  balances : List BalanceRow
  earn : List BalanceRow
  withdrawals : List WithdrawalRow
  deposits : List DepositRow
  trades : List TradeRow
  userModes : List (Nat × String)
  globalMode : Option String
  history : List HistoryRow
  conversions : List ConversionRow
deriving DecidableEq, Repr

/-- Error taxonomy of the HTTP handlers (400/404/500 responses). -/
inductive ApiError
  | ValidationError
  | InsufficientFunds
  | NotFound
  | AlreadyFinalized
  | DbError
deriving DecidableEq, Repr

/-- `SELECT * FROM withdrawals WHERE id = i` (`rows[0]`). -/
def getWithdrawal : List WithdrawalRow → Nat → Option WithdrawalRow
  | [], _ => none
  | w :: ws, i => if w.id = i then some w else getWithdrawal ws i

/-- `UPDATE withdrawals SET status = st WHERE id = i`. -/
def setWithdrawalStatus (ws : List WithdrawalRow) (i : Nat) (st : ReqStatus) :
    List WithdrawalRow :=
  ws.map fun w => if w.id = i then { w with status := st } else w

/-- `SELECT * FROM deposits WHERE id = i` (`rows[0]`). -/
def getDeposit : List DepositRow → Nat → Option DepositRow
  | [], _ => none
  | d :: ds, i => if d.id = i then some d else getDeposit ds i

/-- `UPDATE deposits SET status = st WHERE id = i`. -/
def setDepositStatus (ds : List DepositRow) (i : Nat) (st : ReqStatus) : List DepositRow :=
  ds.map fun d => if d.id = i then { d with status := st } else d

/-- `SELECT * FROM trades WHERE id = i` (`rows[0]`). -/
def getTrade : List TradeRow → Nat → Option TradeRow
  | [], _ => none
  | t :: ts, i => if t.id = i then some t else getTrade ts i

/-- `ALLOWED_COINS` (trade.js line 10). -/
def ALLOWED_COINS : List String := ["BTC", "ETH", "SOL", "XRP", "TON"]

/-- `ALLOWED_FOREX` (trade.js line 11). -/
def ALLOWED_FOREX : List String := ["XAU", "XAG", "WTI", "NATGAS", "XCU"]

/-- `entryDecimals` (trade.js line 229): display decimals for the entry price. -/
def entryDecimals (sym : String) : Nat :=
  if sym = "XRP" ∨ sym = "TON" then 4 else 2

/-- The inner `_priceDecimals` of the resolution callback (trade.js line 300). -/
def priceDecimals (sym : String) : Nat :=
  if sym = "XRP" ∨ sym = "TON" then 4 else 2

/-- The hard fallback entry prices (trade.js line 223), `|| 1` for other symbols. -/
def fallbackEntry (sym : String) : ℚ :=
  if sym = "BTC" then 65000
  else if sym = "ETH" then 3400
  else if sym = "SOL" then 140
  else if sym = "XRP" then 3 / 5
  else if sym = "TON" then 7
  else 1

/-- Client-price fallback: `isFinite(client_price) && client_price > 0 ? client_price
: fallback[normSymbol] || 1` (trade.js lines 218-226). -/
def clientOrFallback (client_price : Option ℚ) (sym : String) : ℚ :=
  match client_price with
  | some c => if 0 < c then c else fallbackEntry sym
  | none => fallbackEntry sym

/-- Entry-price selection (trade.js lines 210-226): the fetched spot price if the
fetch succeeded with a positive value, else the client price, else the constant. -/
def rawEntryPrice (fetched client_price : Option ℚ) (sym : String) : ℚ :=
  match fetched with
  | some p => if 0 < p then p else clientOrFallback client_price sym
  | none => clientOrFallback client_price sym

/-- `minTick` of the resolution callback's `_calcGap`
(trade.js line 303: `sp < 2 ? 0.0001 : sp < 100 ? 0.01 : 0.1`). -/
def minTick (sp : ℚ) : ℚ :=
  if sp < 2 then 1 / 10000 else if sp < 100 then 1 / 100 else 1 / 10

/-- `_calcGap` of the resolution callback (trade.js lines 301-306).  `pct` is the
random draw `0.0002 + Math.random() * 0.0006`, i.e. a value in `[0.0002, 0.0008)`. -/
def calcGap (sp pct : ℚ) : ℚ := max (sp * pct) (minTick sp)

/-- The pre-rounding fake result price `_rp` (trade.js lines 311-316):
entry plus/minus the gap, direction- and outcome-consistent. -/
def rawResultPrice (sp : ℚ) (dir : Direction) (result : TradeResult) (pct : ℚ) : ℚ :=
  let gap := calcGap sp pct
  if result = TradeResult.WIN then
    if dir = Direction.BUY then sp + gap else sp - gap
  else
    if dir = Direction.BUY then sp - gap else sp + gap

/-- The persisted `result_price` (trade.js line 317): the pre-rounding price
rounded to the symbol's display decimals. -/
def fakeResultPrice (sp : ℚ) (dir : Direction) (result : TradeResult) (sym : String)
    (pct : ℚ) : ℚ :=
  toFixedQ (priceDecimals sym) (rawResultPrice sp dir result pct)

/-- `FIXED_PROFIT_MAP` (trade.js lines 259-264). -/
def FIXED_PROFIT_MAP (d : ℚ) : Option ℚ :=
  if d = 30 then some (30 / 100)
  else if d = 60 then some (50 / 100)
  else if d = 90 then some (70 / 100)
  else if d = 120 then some (100 / 100)
  else none

/-- `FIXED_PROFIT_MAP[safeDuration] || 0.30` (trade.js line 268). -/
def profitRate (d : ℚ) : ℚ := (FIXED_PROFIT_MAP d).getD (30 / 100)

/-- `getUserTradeMode` (trade.js lines 151-154): the `user_trade_modes` row. -/
def getUserTradeMode (db : DB) (u : Nat) : Option String :=
  (db.userModes.find? fun p => p.1 = u).map Prod.snd

/-- `getTradeMode` (trade.js lines 155-158): the global `TRADE_MODE`, `AUTO` default. -/
def getTradeMode (db : DB) : String := db.globalMode.getD "AUTO"

/-- `let mode = await getUserTradeMode(user_id); if (!mode) mode = await
getTradeMode();` (trade.js lines 254-255): user override wins over global. -/
def resolutionMode (db : DB) (u : Nat) : String :=
  (getUserTradeMode db u).getD (getTradeMode db)

/-- The WIN/LOSE decision (trade.js lines 283-293): forced modes first, otherwise
`wentUp = end_price_for_decision >= start_price` and
`(BUY ∧ wentUp) ∨ (SELL ∧ ¬wentUp)` wins. -/
def decideResult (mode : String) (dir : Direction) (startP endP : ℚ) : TradeResult :=
  if mode = "WIN" ∨ mode = "ALL_WIN" then TradeResult.WIN
  else if mode = "LOSE" ∨ mode = "ALL_LOSE" then TradeResult.LOSE
  else
    if (dir = Direction.BUY ∧ startP ≤ endP) ∨ (dir = Direction.SELL ∧ ¬startP ≤ endP) then
      TradeResult.WIN
    else TradeResult.LOSE

/-- The values the resolution `setTimeout` closure captures from the open request:
it never re-reads the trade row. -/
structure TradeCtx where
  trade_id : Nat
  user_id : Nat
  symbol : String
  direction : Direction
  amount : ℚ
  duration : ℚ
  start_price : ℚ
deriving DecidableEq, Repr

/-- `POST /api/trade` (trade.js lines 178-363) up to scheduling the resolution.
`fetched` is the `getSpotUSD` outcome (`none` = all providers failed; a success is
always finite and positive), `client_price` the optional client hint, `newId` the
id the INSERT returns.  `insertOk = false` models the trade INSERT (the second
mutation, not wrapped in any transaction) throwing: the stake debit persists and
the handler answers 500. -/
def tradeOpen (db : DB) (user_id : Nat) (direction : Direction) (amount duration : ℚ)
    (symbol : String) (client_price fetched : Option ℚ) (newId : Nat) (insertOk : Bool) :
    Except ApiError Nat × DB :=
  if amount = 0 ∨ duration = 0 then (Except.error ApiError.ValidationError, db)
  else if ¬(symbol ∈ ALLOWED_COINS ∨ symbol ∈ ALLOWED_FOREX) then
    (Except.error ApiError.ValidationError, db)
  else
    let safeDuration := max 5 (min 120 duration)
    let safeAmount := max 1 amount
    if user_id ∉ db.users then (Except.error ApiError.NotFound, db)
    else if ¬(hasBal db.balances user_id "USDT" ∧
        safeAmount ≤ getBal db.balances user_id "USDT") then
      (Except.error ApiError.InsufficientFunds, db)
    else
      let start_price := toFixedQ (entryDecimals symbol)
        (rawEntryPrice fetched client_price symbol)
      let debited := { db with balances := addBal db.balances user_id "USDT" (-safeAmount) }
      if insertOk then
        (Except.ok newId, { debited with trades := debited.trades ++
          [⟨newId, user_id, symbol, direction, safeAmount, safeDuration, start_price,
            TradeResult.PENDING, 0, none⟩] })
      else
        (Except.error ApiError.DbError, debited)

/-- The result the resolution callback decides for a trade context (trade.js lines
253-293): mode cascade, with the freshly fetched settlement price (falling back to
the captured entry price when the fetch fails) only consulted in AUTO mode.
Note this function does not take the random `pct` draw: the decision is
independent of the fake result price. -/
def resolvedResult (db : DB) (ctx : TradeCtx) (fetchedEnd : Option ℚ) : TradeResult :=
  decideResult (resolutionMode db ctx.user_id) ctx.direction ctx.start_price
    (fetchedEnd.getD ctx.start_price)

/-- The resolution `setTimeout` callback (trade.js lines 251-347): decide the
result, persist result/profit/fake price on the trade row, credit `stake + profit`
on WIN, and append a balance-history snapshot.  It performs no check of the trade
row's current state. -/
def resolveTrade (db : DB) (ctx : TradeCtx) (fetchedEnd : Option ℚ) (pct : ℚ) : DB :=
  let result := resolvedResult db ctx fetchedEnd
  let percent := profitRate ctx.duration * 100
  let profit := if result = TradeResult.LOSE then -ctx.amount
    else toFixedQ 2 (ctx.amount * percent / 100)
  let result_price := fakeResultPrice ctx.start_price ctx.direction result ctx.symbol pct
  let newBalances := if result = TradeResult.WIN then
      addBal db.balances ctx.user_id "USDT" (ctx.amount + profit)
    else db.balances
  { db with
    trades := db.trades.map fun (t : TradeRow) =>
      if t.id = ctx.trade_id then
        { t with result := result, profit := profit, result_price := some result_price }
      else t,
    balances := newBalances,
    history := db.history ++
      [⟨ctx.user_id, "USDT", getBal newBalances ctx.user_id "USDT", 1⟩] }

/-- `POST /api/withdraw` (withdrawal.js lines 12-50): balance-check only, then
INSERT a pending request.  "SIMPLE VERSION: No transaction, no deduction." -/
def createWithdrawal (db : DB) (user_id : Nat) (coin : String) (amount : ℚ)
    (address : String) (newId : Nat) : Except ApiError Nat × DB :=
  if coin = "" ∨ address = "" then (Except.error ApiError.ValidationError, db)
  else if ¬hasBal db.balances user_id coin then (Except.error ApiError.ValidationError, db)
  else if getBal db.balances user_id coin < amount then
    (Except.error ApiError.InsufficientFunds, db)
  else
    (Except.ok newId, { db with withdrawals := db.withdrawals ++
      [⟨newId, user_id, coin, amount, address, ReqStatus.pending⟩] })

/-- `POST /api/withdraw/:id/status` (withdrawal.js lines 93-161): admin
approve/reject inside a transaction; only `approved`/`rejected` accepted; a
non-pending request is rejected; approval re-checks the balance and deducts. -/
def withdrawalStatusHandler (db : DB) (i : Nat) (st : ReqStatus) :
    Except ApiError Unit × DB :=
  if st = ReqStatus.pending then (Except.error ApiError.ValidationError, db)
  else
    match getWithdrawal db.withdrawals i with
    | none => (Except.error ApiError.NotFound, db)
    | some w =>
      if w.status ≠ ReqStatus.pending then (Except.error ApiError.AlreadyFinalized, db)
      else if st = ReqStatus.approved then
        if ¬(hasBal db.balances w.user_id w.coin ∧
            w.amount ≤ getBal db.balances w.user_id w.coin) then
          (Except.error ApiError.InsufficientFunds, db)
        else
          (Except.ok (), { db with
            balances := addBal db.balances w.user_id w.coin (-w.amount),
            withdrawals := setWithdrawalStatus db.withdrawals i st })
      else
        (Except.ok (), { db with withdrawals := setWithdrawalStatus db.withdrawals i st })

/-- `POST /api/admin/withdrawals/:id/status` (admin.js lines 87-125): accepts
`approved|rejected|pending`; deducts when moving a not-already-approved request to
`approved` (after a balance check); otherwise just overwrites the status — with no
pending/terminal-state guard. -/
def adminWithdrawalStatusHandler (db : DB) (i : Nat) (st : ReqStatus) :
    Except ApiError Unit × DB :=
  match getWithdrawal db.withdrawals i with
  | none => (Except.error ApiError.NotFound, db)
  | some w =>
    if w.status ≠ ReqStatus.approved ∧ st = ReqStatus.approved then
      if ¬hasBal db.balances w.user_id w.coin then (Except.error ApiError.DbError, db)
      else if getBal db.balances w.user_id w.coin < w.amount then
        (Except.error ApiError.InsufficientFunds, db)
      else
        (Except.ok (), { db with
          withdrawals := setWithdrawalStatus db.withdrawals i st,
          balances := addBal db.balances w.user_id w.coin (-w.amount) })
    else
      (Except.ok (), { db with withdrawals := setWithdrawalStatus db.withdrawals i st })

/-- `POST /api/admin/deposits/:id/status` (admin.js lines 57-84): accepts
`approved|rejected|pending`, overwrites the status, and on `approved` upserts the
credit — with no check whatsoever that the deposit is still pending. -/
def adminDepositStatusHandler (db : DB) (i : Nat) (st : ReqStatus) :
    Except ApiError Unit × DB :=
  match getDeposit db.deposits i with
  | none => (Except.error ApiError.NotFound, db)
  | some d =>
    let db1 := { db with deposits := setDepositStatus db.deposits i st }
    if st = ReqStatus.approved then
      (Except.ok (), { db1 with
        balances := upsertBal db1.balances d.user_id d.coin d.amount })
    else
      (Except.ok (), db1)

/-- `POST /api/earn/deposit` (earn.js lines 34-86): inside a transaction, check the
main wallet, debit it, upsert the earn wallet.  `creditOk = false` models the earn
upsert throwing: the transaction ROLLBACKs, leaving the state unchanged. -/
def earnDeposit (db : DB) (user_id : Nat) (coin : String) (amount : ℚ)
    (creditOk : Bool) : Except ApiError Unit × DB :=
  if amount ≤ 0 then (Except.error ApiError.ValidationError, db)
  else if getBal db.balances user_id coin < amount then
    (Except.error ApiError.InsufficientFunds, db)
  else if creditOk then
    (Except.ok (), { db with
      balances := addBal db.balances user_id coin (-amount),
      earn := upsertBal db.earn user_id coin amount })
  else
    (Except.error ApiError.DbError, db)

/-- `POST /api/earn/withdraw` (earn.js lines 92-146): inside a transaction, check
the earn wallet, debit it, upsert the main wallet.  `creditOk = false` models the
main-wallet upsert throwing: ROLLBACK, state unchanged. -/
def earnWithdraw (db : DB) (user_id : Nat) (coin : String) (amount : ℚ)
    (creditOk : Bool) : Except ApiError Unit × DB :=
  if amount ≤ 0 then (Except.error ApiError.ValidationError, db)
  else if getBal db.earn user_id coin < amount then
    (Except.error ApiError.InsufficientFunds, db)
  else if creditOk then
    (Except.ok (), { db with
      earn := addBal db.earn user_id coin (-amount),
      balances := upsertBal db.balances user_id coin amount })
  else
    (Except.error ApiError.DbError, db)

/-- `coinDecimals` (convert.js lines 89-93). -/
def coinDecimals (sym : String) : Nat :=
  if sym = "USDT" then 2 else if sym = "XRP" ∨ sym = "TON" then 4 else 8

/-- The coins `POST /api/convert` accepts (convert.js line 112). -/
def allowedConvert : List String := ["BTC", "ETH", "SOL", "XRP", "TON", "USDT"]

/-- `POST /api/convert` (convert.js lines 95-177): validate, compute `received`
from the live rate, check the source balance, then debit source and upsert target
as two plain updates — the source comments "wrap in transaction if you want strict
atomicity".  `rateUSD` is the `getSpotUSD` result (always positive on success; a
fetch failure throws before any mutation).  `creditOk = false` models the target
upsert throwing after the source debit committed: the debit persists. -/
def convertCoins (db : DB) (user_id : Nat) (fromSym toSym : String) (amt rateUSD : ℚ)
    (creditOk : Bool) : Except ApiError Unit × DB :=
  if amt ≤ 0 then (Except.error ApiError.ValidationError, db)
  else if fromSym = toSym then (Except.error ApiError.ValidationError, db)
  else if ¬(fromSym ∈ allowedConvert ∧ toSym ∈ allowedConvert) then
    (Except.error ApiError.ValidationError, db)
  else if ¬(fromSym = "USDT" ∨ toSym = "USDT") then
    (Except.error ApiError.ValidationError, db)
  else
    let received := if fromSym = "USDT" then toFixedQ (coinDecimals toSym) (amt / rateUSD)
      else toFixedQ (coinDecimals "USDT") (amt * rateUSD)
    if getBal db.balances user_id fromSym < amt then
      (Except.error ApiError.InsufficientFunds, db)
    else
      let debited := { db with balances := addBal db.balances user_id fromSym (-amt) }
      if creditOk then
        (Except.ok (), { debited with
          balances := upsertBal debited.balances user_id toSym received,
          conversions := debited.conversions ++
            [⟨user_id, fromSym, toSym, amt, received, rateUSD⟩] })
      else
        (Except.error ApiError.DbError, debited)

/-- Concrete witness state for C1: one user with 100 USDT in the main wallet,
5 USDT saved, and a pending 40-USDT withdrawal. -/
def dbC1 : DB :=
  { users := [1], balances := [⟨1, "USDT", 100⟩], earn := [⟨1, "USDT", 5⟩],
    withdrawals := [⟨1, 1, "USDT", 40, "addr", ReqStatus.pending⟩], deposits := [],
    trades := [], userModes := [], globalMode := none, history := [], conversions := [] }

/-- Concrete state for C2: deposit 1 (user 1, 20 BTC) is already `approved`;
user 1 holds 100 BTC. -/
def dbC2 : DB :=
  { users := [1], balances := [⟨1, "BTC", 100⟩], earn := [], withdrawals := [],
    deposits := [⟨1, 1, "BTC", 20, ReqStatus.approved⟩], trades := [], userModes := [],
    globalMode := none, history := [], conversions := [] }

/-- Concrete state for C3: user 1 holds 100 USDT. -/
def dbC3 : DB :=
  { users := [1], balances := [⟨1, "USDT", 100⟩], earn := [], withdrawals := [],
    deposits := [], trades := [], userModes := [], globalMode := none, history := [],
    conversions := [] }

/-- Concrete state for C4: trade 1 is already resolved (WIN, profit 3, already
credited: balance 103); global mode is still `ALL_WIN`. -/
def dbC4 : DB :=
  { users := [1], balances := [⟨1, "USDT", 103⟩], earn := [], withdrawals := [],
    deposits := [],
    trades := [⟨1, 1, "BTC", Direction.BUY, 10, 30, 65000, TradeResult.WIN, 3, some 65013⟩],
    userModes := [], globalMode := some "ALL_WIN", history := [], conversions := [] }

/-- The captured closure values for dbC4's trade 1. -/
def ctxC4 : TradeCtx := ⟨1, 1, "BTC", Direction.BUY, 10, 30, 65000⟩

/-- The combined main + earn holding of `(u, c)` — the quantity the earn
transfers must conserve. -/
def totalBal (db : DB) (u : Nat) (c : String) : ℚ :=
  getBal db.balances u c + getBal db.earn u c

/-- Modelled from the spec's words: "direction-consistent win/lose — BUY wins if
price rose, SELL wins if price fell", read as a predicate of the entry and the
freshly fetched settlement price. -/
def specDirectionConsistent (dir : Direction) (entry settle : ℚ) : Prop :=
  (dir = Direction.BUY ∧ entry < settle) ∨ (dir = Direction.SELL ∧ settle < entry)

/-- Concrete state for C6: no per-user override and no global-mode row (AUTO). -/
def dbC6 : DB :=
  { users := [1], balances := [⟨1, "USDT", 100⟩], earn := [], withdrawals := [],
    deposits := [], trades := [], userModes := [], globalMode := none, history := [],
    conversions := [] }

/-- The captured closure values for C6's counterexample: BUY from entry 100. -/
def ctxC6 : TradeCtx := ⟨1, 1, "BTC", Direction.BUY, 10, 30, 100⟩

/-- State for C6's witness: user 1 has a per-account WIN override while the
global mode says ALL_LOSE. -/
def dbC6w : DB :=
  { users := [1], balances := [], earn := [], withdrawals := [], deposits := [],
    trades := [], userModes := [(1, "WIN")], globalMode := some "ALL_LOSE",
    history := [], conversions := [] }

/-- Scenario state for C7: user 1 holds 100 USDT, global mode forced `ALL_WIN`. -/
def dbC7 : DB :=
  { users := [1], balances := [⟨1, "USDT", 100⟩], earn := [], withdrawals := [],
    deposits := [], trades := [], userModes := [], globalMode := some "ALL_WIN",
    history := [], conversions := [] }

/-- C7's LOSE variant: same state with global mode `ALL_LOSE`. -/
def dbC7L : DB :=
  { users := [1], balances := [⟨1, "USDT", 100⟩], earn := [], withdrawals := [],
    deposits := [], trades := [], userModes := [], globalMode := some "ALL_LOSE",
    history := [], conversions := [] }

/-- The closure values captured by opening the C7 trade (BUY 10 USDT, 30s,
entry 65000). -/
def ctxC7 : TradeCtx := ⟨1, 1, "BTC", Direction.BUY, 10, 30, 65000⟩

/-- The C7 open request against the ALL_WIN state. -/
def openC7 : Except ApiError Nat × DB :=
  tradeOpen dbC7 1 Direction.BUY 10 30 "BTC" none (some 65000) 1 true

/-- The C7 open request against the ALL_LOSE state. -/
def openC7L : Except ApiError Nat × DB :=
  tradeOpen dbC7L 1 Direction.BUY 10 30 "BTC" none (some 65000) 1 true

/-- Concrete witness state for C9: user 1 holds 100 USDT and withdrawal 1
(40 USDT) is pending. -/
def dbC9 : DB :=
  { users := [1], balances := [⟨1, "USDT", 100⟩], earn := [],
    withdrawals := [⟨1, 1, "USDT", 40, "addr", ReqStatus.pending⟩], deposits := [],
    trades := [], userModes := [], globalMode := none, history := [], conversions := [] }

/-- Concrete witness state for C10: user 1 holds 100 USDT. -/
def dbC10 : DB :=
  { users := [1], balances := [⟨1, "USDT", 100⟩], earn := [], withdrawals := [],
    deposits := [], trades := [], userModes := [], globalMode := none, history := [],
    conversions := [] }

/-! ## Theorems: ledger lemmas and the claims C1-C10 -/

theorem getBal_cons (r : BalanceRow) (rs : List BalanceRow) (u : Nat) (c : String) :
    getBal (r :: rs) u c =
      if r.user_id = u ∧ r.coin = c then r.balance else getBal rs u c := rfl

theorem hasBal_cons (r : BalanceRow) (rs : List BalanceRow) (u : Nat) (c : String) :
    hasBal (r :: rs) u c =
      if r.user_id = u ∧ r.coin = c then true else hasBal rs u c := rfl

theorem addBal_cons (r : BalanceRow) (rs : List BalanceRow) (u : Nat) (c : String) (d : ℚ) :
    addBal (r :: rs) u c d =
      (if r.user_id = u ∧ r.coin = c then { r with balance := r.balance + d } else r) ::
        addBal rs u c d := rfl

theorem getBal_nonneg {rows : List BalanceRow} (h : NonNegBal rows) (u : Nat) (c : String) :
    0 ≤ getBal rows u c := by
  induction rows with
  | nil => simp [getBal]
  | cons r rs ih =>
    rw [getBal_cons]
    split
    · exact h r (List.mem_cons_self r rs)
    · exact ih fun x hx => h x (List.mem_cons_of_mem r hx)

theorem getBal_eq_zero_of_not_has {rows : List BalanceRow} {u : Nat} {c : String}
    (h : hasBal rows u c = false) : getBal rows u c = 0 := by
  induction rows with
  | nil => simp [getBal]
  | cons r rs ih =>
    rw [hasBal_cons] at h
    rw [getBal_cons]
    by_cases hk : r.user_id = u ∧ r.coin = c
    · rw [if_pos hk] at h
      exact absurd h (by decide)
    · rw [if_neg hk] at h
      rw [if_neg hk]
      exact ih h

theorem hasBal_of_getBal_ne_zero {rows : List BalanceRow} {u : Nat} {c : String}
    (h : getBal rows u c ≠ 0) : hasBal rows u c = true := by
  by_contra hh
  exact h (getBal_eq_zero_of_not_has (Bool.eq_false_iff.mpr hh))

theorem addBal_of_not_has {rows : List BalanceRow} {u : Nat} {c : String} {d : ℚ}
    (h : hasBal rows u c = false) : addBal rows u c d = rows := by
  induction rows with
  | nil => rfl
  | cons r rs ih =>
    rw [hasBal_cons] at h
    rw [addBal_cons]
    by_cases hk : r.user_id = u ∧ r.coin = c
    · rw [if_pos hk] at h
      exact absurd h (by decide)
    · rw [if_neg hk] at h
      rw [if_neg hk, ih h]

theorem getBal_addBal_self {rows : List BalanceRow} {u : Nat} {c : String} {d : ℚ}
    (h : hasBal rows u c = true) :
    getBal (addBal rows u c d) u c = getBal rows u c + d := by
  induction rows with
  | nil => simp [hasBal] at h
  | cons r rs ih =>
    rw [hasBal_cons] at h
    rw [addBal_cons]
    by_cases hk : r.user_id = u ∧ r.coin = c
    · rw [if_pos hk, getBal_cons, getBal_cons, if_pos hk]
      rw [if_pos (show ({ r with balance := r.balance + d } : BalanceRow).user_id = u ∧
            ({ r with balance := r.balance + d } : BalanceRow).coin = c from hk)]
    · rw [if_neg hk] at h
      rw [if_neg hk, getBal_cons, getBal_cons, if_neg hk, if_neg hk]
      exact ih h

theorem getBal_addBal_ne {rows : List BalanceRow} {u : Nat} {c : String} {d : ℚ}
    {u' : Nat} {c' : String} (h : ¬(u' = u ∧ c' = c)) :
    getBal (addBal rows u c d) u' c' = getBal rows u' c' := by
  induction rows with
  | nil => rfl
  | cons r rs ih =>
    rw [addBal_cons]
    by_cases hk : r.user_id = u ∧ r.coin = c
    · have hne : ¬(r.user_id = u' ∧ r.coin = c') := by
        rintro ⟨h1, h2⟩
        exact h ⟨h1 ▸ hk.1, h2 ▸ hk.2⟩
      rw [if_pos hk, getBal_cons, getBal_cons, if_neg hne,
        if_neg (show ¬(({ r with balance := r.balance + d } : BalanceRow).user_id = u' ∧
          ({ r with balance := r.balance + d } : BalanceRow).coin = c') from hne)]
      exact ih
    · rw [if_neg hk, getBal_cons, getBal_cons]
      split
      · rfl
      · exact ih

theorem hasBal_addBal (rows : List BalanceRow) (u : Nat) (c : String) (d : ℚ)
    (u' : Nat) (c' : String) :
    hasBal (addBal rows u c d) u' c' = hasBal rows u' c' := by
  induction rows with
  | nil => rfl
  | cons r rs ih =>
    rw [addBal_cons]
    by_cases hk : r.user_id = u ∧ r.coin = c
    · rw [if_pos hk, hasBal_cons, hasBal_cons]
      by_cases hk' : r.user_id = u' ∧ r.coin = c'
      · rw [if_pos hk', if_pos (show ({ r with balance := r.balance + d } : BalanceRow).user_id
          = u' ∧ ({ r with balance := r.balance + d } : BalanceRow).coin = c' from hk')]
      · rw [if_neg hk', if_neg (show ¬(({ r with balance := r.balance + d } :
          BalanceRow).user_id = u' ∧ ({ r with balance := r.balance + d} :
          BalanceRow).coin = c') from hk'), ih]
    · rw [if_neg hk, hasBal_cons, hasBal_cons]
      split
      · rfl
      · exact ih

theorem getBal_append (rows rows' : List BalanceRow) (u : Nat) (c : String) :
    getBal (rows ++ rows') u c =
      if hasBal rows u c then getBal rows u c else getBal rows' u c := by
  induction rows with
  | nil => simp [getBal, hasBal]
  | cons r rs ih =>
    by_cases hk : r.user_id = u ∧ r.coin = c
    · simp [getBal_cons, hasBal_cons, hk]
    · simp [getBal_cons, hasBal_cons, hk, ih]

theorem getBal_upsertBal_self (rows : List BalanceRow) (u : Nat) (c : String) (d : ℚ) :
    getBal (upsertBal rows u c d) u c = getBal rows u c + d := by
  unfold upsertBal
  by_cases h : hasBal rows u c
  · rw [if_pos h, getBal_addBal_self h]
  · rw [if_neg h, getBal_append, if_neg h,
      getBal_eq_zero_of_not_has (Bool.eq_false_iff.mpr h)]
    simp [getBal]

theorem getBal_upsertBal_ne (rows : List BalanceRow) (u : Nat) (c : String) (d : ℚ)
    {u' : Nat} {c' : String} (h : ¬(u' = u ∧ c' = c)) :
    getBal (upsertBal rows u c d) u' c' = getBal rows u' c' := by
  unfold upsertBal
  by_cases hh : hasBal rows u c
  · rw [if_pos hh, getBal_addBal_ne h]
  · rw [if_neg hh, getBal_append]
    by_cases hb : hasBal rows u' c'
    · rw [if_pos hb]
    · rw [if_neg hb, getBal_cons, if_neg fun hc => h ⟨hc.1.symm, hc.2.symm⟩]
      exact (getBal_eq_zero_of_not_has (Bool.eq_false_iff.mpr hb)).symm

theorem balance_eq_getBal {rows : List BalanceRow} {r : BalanceRow} {u : Nat} {c : String}
    (hnd : keysNodup rows) (hr : r ∈ rows) (hk : r.user_id = u ∧ r.coin = c) :
    r.balance = getBal rows u c := by
  induction rows with
  | nil => cases hr
  | cons x xs ih =>
    simp only [keysNodup, List.map_cons, List.nodup_cons] at hnd
    rw [getBal_cons]
    rcases List.mem_cons.mp hr with h | h
    · subst h
      rw [if_pos hk]
    · by_cases hx : x.user_id = u ∧ x.coin = c
      · exfalso
        apply hnd.1
        have hm : (r.user_id, r.coin) ∈ xs.map fun y => (y.user_id, y.coin) :=
          List.mem_map.mpr ⟨r, h, rfl⟩
        rw [hk.1, hk.2, ← hx.1, ← hx.2] at hm
        exact hm
      · rw [if_neg hx]
        exact ih hnd.2 h

theorem nonNegBal_addBal {rows : List BalanceRow} {u : Nat} {c : String} {d : ℚ}
    (hnd : keysNodup rows) (hnn : NonNegBal rows) (h : 0 ≤ getBal rows u c + d) :
    NonNegBal (addBal rows u c d) := by
  intro r' hr'
  simp only [addBal, List.mem_map] at hr'
  obtain ⟨r, hr, heq⟩ := hr'
  by_cases hk : r.user_id = u ∧ r.coin = c
  · rw [if_pos hk] at heq
    subst heq
    simpa [balance_eq_getBal hnd hr hk] using h
  · rw [if_neg hk] at heq
    subst heq
    exact hnn r hr

theorem nonNegBal_upsertBal {rows : List BalanceRow} {u : Nat} {c : String} {d : ℚ}
    (hnd : keysNodup rows) (hnn : NonNegBal rows) (hd : 0 ≤ d) :
    NonNegBal (upsertBal rows u c d) := by
  unfold upsertBal
  split
  · exact nonNegBal_addBal hnd hnn (add_nonneg (getBal_nonneg hnn u c) hd)
  · intro r' hr'
    rcases List.mem_append.mp hr' with h | h
    · exact hnn r' h
    · simp only [List.mem_singleton] at h
      subst h
      exact hd

theorem toFixedQ_mono (d : Nat) {x y : ℚ} (h : x ≤ y) : toFixedQ d x ≤ toFixedQ d y := by
  unfold toFixedQ
  gcongr

theorem toFixedQ_nonneg (d : Nat) {x : ℚ} (h : 0 ≤ x) : 0 ≤ toFixedQ d x := by
  unfold toFixedQ
  have hp : (0 : ℚ) < 10 ^ d := by positivity
  apply div_nonneg _ (le_of_lt hp)
  have : (0 : ℤ) ≤ ⌊x * 10 ^ d + 1 / 2⌋ := by
    apply Int.le_floor.mpr
    push_cast
    nlinarith
  exact_mod_cast this

theorem keysNodup_addBal (rows : List BalanceRow) (u : Nat) (c : String) (d : ℚ)
    (h : keysNodup rows) : keysNodup (addBal rows u c d) := by
  unfold keysNodup addBal
  rw [List.map_map]
  have : ∀ r ∈ rows, ((fun r : BalanceRow => (r.user_id, r.coin)) ∘ fun r : BalanceRow =>
      if r.user_id = u ∧ r.coin = c then { r with balance := r.balance + d } else r) r
      = (fun r : BalanceRow => (r.user_id, r.coin)) r := by
    intro r _
    by_cases hk : r.user_id = u ∧ r.coin = c
    · simp [hk]
    · simp [hk]
  rw [List.map_congr_left this]
  exact h

/-- C1: every debiting Settlement Engine operation — withdrawal approval (user and
admin variants), trade stake deduction, earn transfers, conversion — aborts with
`InsufficientFunds` (state unchanged) rather than drive a balance negative, and
withdrawal approval re-checks sufficiency at approval time; hence starting from
non-negative balance tables (with the `(user_id, coin)` unique constraint), every
balance stays non-negative after any of these operations.  The `0 < rate`
hypothesis for conversion is `getSpotUSD`'s guarantee that a successful price
fetch is positive. -/
theorem C1_no_negative_balance
    (db : DB) (hnd : keysNodup db.balances) (hnn : NonNegBal db.balances)
    (hnd2 : keysNodup db.earn) (hnn2 : NonNegBal db.earn) :
    (∀ u dir amount duration sym cp f nid ok,
      NonNegBal (tradeOpen db u dir amount duration sym cp f nid ok).2.balances) ∧
    (∀ i st, NonNegBal (withdrawalStatusHandler db i st).2.balances) ∧
    (∀ i st, NonNegBal (adminWithdrawalStatusHandler db i st).2.balances) ∧
    (∀ u c a ok, NonNegBal (earnDeposit db u c a ok).2.balances ∧
      NonNegBal (earnDeposit db u c a ok).2.earn) ∧
    (∀ u c a ok, NonNegBal (earnWithdraw db u c a ok).2.balances ∧
      NonNegBal (earnWithdraw db u c a ok).2.earn) ∧
    (∀ u fs ts a rate ok, 0 < rate →
      NonNegBal (convertCoins db u fs ts a rate ok).2.balances) ∧
    (∀ i w, getWithdrawal db.withdrawals i = some w → w.status = ReqStatus.pending →
      getBal db.balances w.user_id w.coin < w.amount →
      (withdrawalStatusHandler db i ReqStatus.approved).1
          = Except.error ApiError.InsufficientFunds ∧
      (withdrawalStatusHandler db i ReqStatus.approved).2 = db) := by
  refine ⟨?_, ?_, ?_, ?_, ?_, ?_, ?_⟩
  · intro u dir amount duration sym cp f nid ok
    unfold tradeOpen
    dsimp only
    split_ifs with h1 h2 h3 hbal hok <;> try exact hnn
    all_goals {
      push_neg at hbal
      apply nonNegBal_addBal hnd hnn
      have := hbal.2
      linarith }
  · intro i st
    unfold withdrawalStatusHandler
    cases hw : getWithdrawal db.withdrawals i with
    | none =>
      dsimp only
      split_ifs <;> exact hnn
    | some w =>
      dsimp only
      split_ifs with h1 h2 h3 h4 <;> try exact hnn
      push_neg at h4
      apply nonNegBal_addBal hnd hnn
      have := h4.2
      linarith
  · intro i st
    unfold adminWithdrawalStatusHandler
    cases hw : getWithdrawal db.withdrawals i with
    | none => exact hnn
    | some w =>
      dsimp only
      split_ifs with h1 h2 h3 <;> try exact hnn
      push_neg at h3
      apply nonNegBal_addBal hnd hnn
      linarith
  · intro u c a ok
    unfold earnDeposit
    split_ifs with h1 h2 h3 <;> try exact ⟨hnn, hnn2⟩
    push_neg at h1 h2
    constructor
    · exact nonNegBal_addBal hnd hnn (by linarith)
    · exact nonNegBal_upsertBal hnd2 hnn2 (le_of_lt h1)
  · intro u c a ok
    unfold earnWithdraw
    split_ifs with h1 h2 h3 <;> try exact ⟨hnn, hnn2⟩
    push_neg at h1 h2
    constructor
    · exact nonNegBal_upsertBal hnd hnn (le_of_lt h1)
    · exact nonNegBal_addBal hnd2 hnn2 (by linarith)
  · intro u fs ts a rate ok hrate
    unfold convertCoins
    dsimp only
    split_ifs with h1 h2 h3 h4 h5 h6 h7 <;> try exact hnn
    all_goals push_neg at *
    all_goals
      first
      | exact nonNegBal_addBal hnd hnn (by linarith)
      | { apply nonNegBal_upsertBal (keysNodup_addBal _ _ _ _ hnd)
            (nonNegBal_addBal hnd hnn (by linarith))
          exact toFixedQ_nonneg _ (by positivity) }
  · intro i w hw hpending hlt
    unfold withdrawalStatusHandler
    rw [if_neg (show ¬(ReqStatus.approved = ReqStatus.pending) by decide), hw]
    dsimp only
    rw [if_neg (not_not_intro hpending), if_pos rfl,
      if_pos (show ¬(hasBal db.balances w.user_id w.coin = true ∧
        w.amount ≤ getBal db.balances w.user_id w.coin) from
        fun hc => absurd hlt (not_lt.mpr hc.2))]
    exact ⟨rfl, rfl⟩

/-- Witness for C1 at a concrete state: the hypotheses hold and two of the
guarded conclusions are drawn. -/
theorem C1_no_negative_balance_witness :
    NonNegBal (earnDeposit dbC1 1 "USDT" 30 true).2.balances ∧
    NonNegBal (withdrawalStatusHandler dbC1 1 ReqStatus.approved).2.balances :=
  ⟨((C1_no_negative_balance dbC1 (by decide) (by decide) (by decide)
      (by decide)).2.2.2.1 1 "USDT" 30 true).1,
    (C1_no_negative_balance dbC1 (by decide) (by decide) (by decide)
      (by decide)).2.1 1 ReqStatus.approved⟩

/-- C2 (code bug): the admin force-status endpoint `POST /admin/deposits/:id/status`
(src/unnamed/part_001 lines 57-84) has no terminal-state guard: force-approving
the already-approved deposit 1 answers success and credits its 20 BTC a second
time (100 → 120), instead of rejecting with `AlreadyFinalized` and zero balance
change as the claim states (and as the user-facing routes do). -/
theorem C2_admin_force_status_double_credit :
    (adminDepositStatusHandler dbC2 1 ReqStatus.approved).1 = Except.ok () ∧
    getBal (adminDepositStatusHandler dbC2 1 ReqStatus.approved).2.balances 1 "BTC" = 120 ∧
    getBal dbC2.balances 1 "BTC" = 100 := by
  refine ⟨rfl, ?_, by norm_num [dbC2, getBal]⟩
  norm_num [adminDepositStatusHandler, dbC2, getDeposit, setDepositStatus, upsertBal,
    hasBal, addBal, getBal]

/-- C3 counterexample: converting 50 USDT to BTC (rate 65000) with the target
credit step failing is not rolled back — the handler answers 500 yet a subsequent
read sees the source debit (100 → 50), refuting "if any step in the sequence
fails, all prior steps in that unit are undone and no balance mutation is
observable". -/
theorem C3_counterexample_convert_not_atomic :
    (convertCoins dbC3 1 "USDT" "BTC" 50 65000 false).1 = Except.error ApiError.DbError ∧
    getBal (convertCoins dbC3 1 "USDT" "BTC" 50 65000 false).2.balances 1 "USDT" = 50 ∧
    getBal dbC3.balances 1 "USDT" = 100 := by
  refine ⟨?_, ?_, by simp [dbC3, getBal]⟩ <;>
  · simp [convertCoins, dbC3, allowedConvert, addBal, getBal, hasBal]
    norm_num

/-- C3 amended: the transaction-wrapped sequences (earn deposit and earn withdraw)
are atomic — a failing credit step leaves the state unchanged — but trade open
(stake debit + trade insert) and coin conversion (debit + credit) are not wrapped
in a transaction: when their second step fails (the handler answers `DbError`),
the first step's debit persists and no compensating write occurs. -/
theorem C3_amended_atomicity :
    (∀ db u c a, (earnDeposit db u c a false).2 = db) ∧
    (∀ db u c a, (earnWithdraw db u c a false).2 = db) ∧
    (∀ db u dir amount duration sym cp f nid,
      (tradeOpen db u dir amount duration sym cp f nid false).1
          = Except.error ApiError.DbError →
      (tradeOpen db u dir amount duration sym cp f nid false).2.balances
          = addBal db.balances u "USDT" (-(max 1 amount)) ∧
      (tradeOpen db u dir amount duration sym cp f nid false).2.trades = db.trades) ∧
    (∀ db u fs ts a rate,
      (convertCoins db u fs ts a rate false).1 = Except.error ApiError.DbError →
      (convertCoins db u fs ts a rate false).2.balances = addBal db.balances u fs (-a)) := by
  refine ⟨?_, ?_, ?_, ?_⟩
  · intro db u c a
    unfold earnDeposit
    split_ifs <;> first | rfl | exact absurd (by assumption) not_false
  · intro db u c a
    unfold earnWithdraw
    split_ifs <;> first | rfl | exact absurd (by assumption) not_false
  · intro db u dir amount duration sym cp f nid h
    unfold tradeOpen at h ⊢
    dsimp only at h ⊢
    split_ifs at h ⊢ <;> simp_all
  · intro db u fs ts a rate h
    unfold convertCoins at h ⊢
    dsimp only at h ⊢
    split_ifs at h ⊢ <;> simp_all

/-- Witness for C3's amended theorem at a concrete state: a failed earn credit
rolls back, a failed conversion credit leaves the debit in place. -/
theorem C3_amended_atomicity_witness :
    (earnDeposit dbC3 1 "USDT" 30 false).2 = dbC3 ∧
    (convertCoins dbC3 1 "USDT" "BTC" 50 65000 false).2.balances
      = addBal dbC3.balances 1 "USDT" (-50) :=
  ⟨C3_amended_atomicity.1 dbC3 1 "USDT" 30,
    C3_amended_atomicity.2.2.2 dbC3 1 "USDT" "BTC" 50 65000
      (by simp [convertCoins, dbC3, allowedConvert, getBal]; norm_num)⟩

/-- Never-PENDING: the decision function only returns WIN or LOSE. -/
theorem decideResult_ne_pending (mode : String) (dir : Direction) (startP endP : ℚ) :
    decideResult mode dir startP endP ≠ TradeResult.PENDING := by
  unfold decideResult
  split_ifs <;> simp

/-- C4 counterexample: the resolution callback performs no check of the trade
row's current state, so running it again against the already-resolved trade 1
credits stake+profit a second time (103 → 116) — not a no-op. -/
theorem C4_counterexample_second_resolution_not_noop :
    getBal (resolveTrade dbC4 ctxC4 none (1 / 5000)).balances 1 "USDT" = 116 ∧
    getBal dbC4.balances 1 "USDT" = 103 := by
  constructor
  · simp [resolveTrade, resolvedResult, resolutionMode, getUserTradeMode, getTradeMode,
      decideResult, profitRate, FIXED_PROFIT_MAP, dbC4, ctxC4, addBal, getBal]
    norm_num [toFixedQ]
  · simp [dbC4, getBal]

/-- C4 amended: the resolution step never writes PENDING, but it is not guarded
against re-invocation: whenever the decision comes out WIN it credits
`stake + profit` on top of the current balance — also when the trade row is
already resolved — and on LOSE it touches no balance.  (In-process, the open
handler schedules the callback exactly once per trade.) -/
theorem C4_amended_resolution_not_guarded (db : DB) (ctx : TradeCtx) (fe : Option ℚ)
    (pct : ℚ) :
    (∀ t ∈ (resolveTrade db ctx fe pct).trades, t.id = ctx.trade_id →
      t.result ≠ TradeResult.PENDING) ∧
    (resolvedResult db ctx fe = TradeResult.WIN →
      hasBal db.balances ctx.user_id "USDT" = true →
      getBal (resolveTrade db ctx fe pct).balances ctx.user_id "USDT"
        = getBal db.balances ctx.user_id "USDT" + ctx.amount
          + toFixedQ 2 (ctx.amount * (profitRate ctx.duration * 100) / 100)) ∧
    (resolvedResult db ctx fe = TradeResult.LOSE →
      (resolveTrade db ctx fe pct).balances = db.balances) := by
  refine ⟨?_, ?_, ?_⟩
  · intro t ht hid
    unfold resolveTrade at ht
    dsimp only at ht
    rcases List.mem_map.mp ht with ⟨t0, ht0, heq⟩
    by_cases h0 : t0.id = ctx.trade_id
    · rw [if_pos h0] at heq
      rw [← heq]
      exact decideResult_ne_pending _ _ _ _
    · rw [if_neg h0] at heq
      rw [← heq] at hid
      exact absurd hid h0
  · intro hwin hhas
    unfold resolveTrade
    dsimp only
    rw [hwin, if_pos (rfl : TradeResult.WIN = TradeResult.WIN),
      if_neg (show ¬(TradeResult.WIN = TradeResult.LOSE) by decide),
      getBal_addBal_self hhas]
    ring
  · intro hlose
    unfold resolveTrade
    dsimp only
    rw [hlose, if_neg (show ¬(TradeResult.LOSE = TradeResult.WIN) by decide)]

/-- Witness for C4's amended theorem at the concrete re-invocation state. -/
theorem C4_amended_resolution_not_guarded_witness :
    getBal (resolveTrade dbC4 ctxC4 none (1 / 5000)).balances ctxC4.user_id "USDT"
      = getBal dbC4.balances ctxC4.user_id "USDT" + ctxC4.amount
        + toFixedQ 2 (ctxC4.amount * (profitRate ctxC4.duration * 100) / 100) :=
  (C4_amended_resolution_not_guarded dbC4 ctxC4 none (1 / 5000)).2.1
    (by simp [resolvedResult, resolutionMode, getUserTradeMode, getTradeMode,
      decideResult, dbC4, ctxC4])
    (by decide)

/-- C5: for every account, coin and earn transfer (deposit to savings or
withdraw back), the sum `mainBalance + earnBalance` of every `(account, coin)`
pair is unchanged: the transfer debits one ledger and credits the other by
exactly the same amount, both-or-neither (and every rejected or failed transfer
changes nothing). -/
theorem C5_earn_transfer_conserves_total (db : DB) (u : Nat) (c : String) (a : ℚ)
    (ok : Bool) (u' : Nat) (c' : String) :
    totalBal (earnDeposit db u c a ok).2 u' c' = totalBal db u' c' ∧
    totalBal (earnWithdraw db u c a ok).2 u' c' = totalBal db u' c' := by
  constructor
  · unfold earnDeposit
    split_ifs with h1 h2 h3 <;> try rfl
    push_neg at h1 h2
    unfold totalBal
    dsimp only
    by_cases hk : u' = u ∧ c' = c
    · rcases hk with ⟨hu, hc⟩
      subst hu
      subst hc
      have hhas : hasBal db.balances u' c' = true :=
        hasBal_of_getBal_ne_zero (by linarith)
      rw [getBal_addBal_self hhas, getBal_upsertBal_self]
      ring
    · rw [getBal_addBal_ne hk, getBal_upsertBal_ne _ _ _ _ hk]
  · unfold earnWithdraw
    split_ifs with h1 h2 h3 <;> try rfl
    push_neg at h1 h2
    unfold totalBal
    dsimp only
    by_cases hk : u' = u ∧ c' = c
    · rcases hk with ⟨hu, hc⟩
      subst hu
      subst hc
      have hhas : hasBal db.earn u' c' = true :=
        hasBal_of_getBal_ne_zero (by linarith)
      rw [getBal_addBal_self hhas, getBal_upsertBal_self]
      ring
    · rw [getBal_addBal_ne hk, getBal_upsertBal_ne _ _ _ _ hk]

/-- C6 counterexample: in AUTO mode the code computes `wentUp = end >= start`, so
with the settlement fetch returning exactly the entry price (100 = 100) a BUY
resolves WIN although the price did not rise — the claim's "WIN exactly when the
comparison is direction-consistent (BUY wins if the price rose…)" fails at a tie. -/
theorem C6_counterexample_tie_goes_to_buy :
    resolvedResult dbC6 ctxC6 (some 100) = TradeResult.WIN ∧
    ¬specDirectionConsistent Direction.BUY 100 100 := by
  constructor
  · simp [resolvedResult, resolutionMode, getUserTradeMode, getTradeMode, dbC6, ctxC6,
      decideResult]
  · simp [specDirectionConsistent]

/-- C6 amended: a per-account WIN/LOSE override decides the result; otherwise a
global ALL_WIN/ALL_LOSE decides; otherwise (no setting or AUTO) the result is WIN
exactly when BUY and the freshly fetched settlement price is at or above entry
(ties and an unchanged price count as a rise), or SELL and the settlement price
is strictly below entry.  The fetched price falls back to the entry price itself
when the settlement fetch fails. -/
theorem C6_outcome_determination (db : DB) (ctx : TradeCtx) (fe : Option ℚ) :
    (getUserTradeMode db ctx.user_id = some "WIN" →
      resolvedResult db ctx fe = TradeResult.WIN) ∧
    (getUserTradeMode db ctx.user_id = some "LOSE" →
      resolvedResult db ctx fe = TradeResult.LOSE) ∧
    (getUserTradeMode db ctx.user_id = none → db.globalMode = some "ALL_WIN" →
      resolvedResult db ctx fe = TradeResult.WIN) ∧
    (getUserTradeMode db ctx.user_id = none → db.globalMode = some "ALL_LOSE" →
      resolvedResult db ctx fe = TradeResult.LOSE) ∧
    (getUserTradeMode db ctx.user_id = none →
      (db.globalMode = none ∨ db.globalMode = some "AUTO") →
      (resolvedResult db ctx fe = TradeResult.WIN ↔
        ((ctx.direction = Direction.BUY ∧ ctx.start_price ≤ fe.getD ctx.start_price) ∨
          (ctx.direction = Direction.SELL ∧ fe.getD ctx.start_price < ctx.start_price)))) := by
  refine ⟨?_, ?_, ?_, ?_, ?_⟩
  · intro hu
    unfold resolvedResult resolutionMode
    rw [hu]
    simp [decideResult]
  · intro hu
    unfold resolvedResult resolutionMode
    rw [hu]
    simp [decideResult]
  · intro hu hg
    unfold resolvedResult resolutionMode getTradeMode
    rw [hu, hg]
    simp [decideResult]
  · intro hu hg
    unfold resolvedResult resolutionMode getTradeMode
    rw [hu, hg]
    simp [decideResult]
  · intro hu hg
    unfold resolvedResult resolutionMode getTradeMode
    rw [hu]
    have hmode : (db.globalMode.getD "AUTO") = "AUTO" := by
      rcases hg with hg | hg <;> rw [hg] <;> rfl
    rw [Option.getD_none, hmode]
    unfold decideResult
    rw [if_neg (by decide), if_neg (by decide)]
    split_ifs with hcond
    · constructor
      · intro _
        rcases hcond with ⟨hb, hle⟩ | ⟨hs, hnle⟩
        · exact Or.inl ⟨hb, hle⟩
        · exact Or.inr ⟨hs, not_le.mp hnle⟩
      · intro _
        rfl
    · constructor
      · intro h
        exact absurd h (by decide)
      · intro hp
        exfalso
        apply hcond
        rcases hp with ⟨hb, hle⟩ | ⟨hs, hlt⟩
        · exact Or.inl ⟨hb, hle⟩
        · exact Or.inr ⟨hs, not_le.mpr hlt⟩

/-- Witness for C6's amended theorem: the per-account override beats the global
override. -/
theorem C6_outcome_determination_witness :
    resolvedResult dbC6w ctxC6 none = TradeResult.WIN :=
  (C6_outcome_determination dbC6w ctxC6 none).1 (by decide)

/-- C7: with 100 USDT, opening a BUY trade of stake 10 and duration 30s
immediately debits the stake (balance 90) and records a PENDING trade; resolving
under global `ALL_WIN` credits stake plus the 30% duration-bucket payout
(90 + 10 + 3 = 103) and records WIN with profit 3; under `ALL_LOSE` no credit
occurs (balance stays 90) and the trade records LOSE. -/
theorem C7_trade_scenario :
    openC7.1 = Except.ok 1 ∧
    getBal openC7.2.balances 1 "USDT" = 90 ∧
    getTrade openC7.2.trades 1 =
      some ⟨1, 1, "BTC", Direction.BUY, 10, 30, 65000, TradeResult.PENDING, 0, none⟩ ∧
    getBal (resolveTrade openC7.2 ctxC7 (some 65000) (1 / 5000)).balances 1 "USDT" = 103 ∧
    (getTrade (resolveTrade openC7.2 ctxC7 (some 65000) (1 / 5000)).trades 1).map
      TradeRow.result = some TradeResult.WIN ∧
    (getTrade (resolveTrade openC7.2 ctxC7 (some 65000) (1 / 5000)).trades 1).map
      TradeRow.profit = some 3 ∧
    getBal openC7L.2.balances 1 "USDT" = 90 ∧
    getBal (resolveTrade openC7L.2 ctxC7 (some 65000) (1 / 5000)).balances 1 "USDT" = 90 ∧
    (getTrade (resolveTrade openC7L.2 ctxC7 (some 65000) (1 / 5000)).trades 1).map
      TradeRow.result = some TradeResult.LOSE := by
  have hb : ¬((100 : ℚ) < 10) := by norm_num
  have hdur : ((5 : ℚ) ⊔ 120 ⊓ 30) = 30 := by norm_num
  refine ⟨?_, ?_, ?_, ?_, ?_, ?_, ?_, ?_, ?_⟩
  · simp [openC7, tradeOpen, dbC7, ALLOWED_COINS, ALLOWED_FOREX, hasBal, getBal, hb]
  · simp [openC7, tradeOpen, dbC7, ALLOWED_COINS, ALLOWED_FOREX, hasBal, getBal, addBal, hb]
    norm_num
  · simp [openC7, tradeOpen, dbC7, ALLOWED_COINS, ALLOWED_FOREX, hasBal, getBal, getTrade,
      rawEntryPrice, entryDecimals, hb, hdur]
    norm_num [toFixedQ]
  · simp [openC7, tradeOpen, dbC7, ALLOWED_COINS, ALLOWED_FOREX, hasBal, getBal, addBal,
      resolveTrade, resolvedResult, resolutionMode, getUserTradeMode, getTradeMode,
      decideResult, profitRate, FIXED_PROFIT_MAP, ctxC7, hb, hdur]
    norm_num [toFixedQ]
  · simp [openC7, tradeOpen, dbC7, ALLOWED_COINS, ALLOWED_FOREX, hasBal, getBal, getTrade,
      resolveTrade, resolvedResult, resolutionMode, getUserTradeMode, getTradeMode,
      decideResult, ctxC7, hb]
  · simp [openC7, tradeOpen, dbC7, ALLOWED_COINS, ALLOWED_FOREX, hasBal, getBal, getTrade,
      resolveTrade, resolvedResult, resolutionMode, getUserTradeMode, getTradeMode,
      decideResult, profitRate, FIXED_PROFIT_MAP, ctxC7, hb, hdur]
    norm_num [toFixedQ]
  · simp [openC7L, tradeOpen, dbC7L, ALLOWED_COINS, ALLOWED_FOREX, hasBal, getBal, addBal, hb]
    norm_num
  · simp [openC7L, tradeOpen, dbC7L, ALLOWED_COINS, ALLOWED_FOREX, hasBal, getBal, addBal,
      resolveTrade, resolvedResult, resolutionMode, getUserTradeMode, getTradeMode,
      decideResult, ctxC7, hb]
    norm_num
  · simp [openC7L, tradeOpen, dbC7L, ALLOWED_COINS, ALLOWED_FOREX, hasBal, getBal, getTrade,
      resolveTrade, resolvedResult, resolutionMode, getUserTradeMode, getTradeMode,
      decideResult, ctxC7, hb]

/-- The gap is always positive (the minimum tick is). -/
theorem calcGap_pos (sp pct : ℚ) : 0 < calcGap sp pct := by
  apply lt_of_lt_of_le _ (le_max_right (sp * pct) (minTick sp))
  unfold minTick
  split_ifs <;> norm_num

/-- C8 counterexample: for a 2-decimal symbol with entry price below 2 the gap is
under half a display tick, so the persisted price rounds back to exactly the
entry: with entry 1.50 (SOL, reachable as a client-supplied entry price) and the
random draw at its lower bound 0.0002, a WIN+BUY settlement price equals the
entry — not strictly above it. -/
theorem C8_counterexample_rounded_back_to_entry :
    fakeResultPrice (3 / 2) Direction.BUY TradeResult.WIN "SOL" (1 / 5000) = 3 / 2 ∧
    ¬(3 / 2 < fakeResultPrice (3 / 2) Direction.BUY TradeResult.WIN "SOL" (1 / 5000)) := by
  have h : fakeResultPrice (3 / 2) Direction.BUY TradeResult.WIN "SOL" (1 / 5000) = 3 / 2 := by
    norm_num [fakeResultPrice, rawResultPrice, calcGap, minTick, priceDecimals, toFixedQ]
    rw [if_neg (by decide), if_neg (by decide)]
    norm_num
  exact ⟨h, by rw [h]; exact lt_irrefl _⟩

/-- C8 amended: the pre-rounding derived price is a positive offset from entry,
strictly direction- and outcome-consistent (above entry for WIN+BUY, below for
WIN+SELL, inverted for LOSE); the persisted price is that value rounded to the
symbol's display decimals, which keeps the weak direction-consistency (at or
above / at or below entry, for an entry already on the display grid) but can
collapse to exactly the entry when the gap is below half a display tick.  The
WIN/LOSE decision is independent of the random draw used for this price: the
persisted results for any two draws coincide (`resolvedResult` takes no draw). -/
theorem C8_result_price_cosmetic (sp pct : ℚ) (sym : String)
    (hgrid : toFixedQ (priceDecimals sym) sp = sp) :
    (sp < rawResultPrice sp Direction.BUY TradeResult.WIN pct ∧
      rawResultPrice sp Direction.SELL TradeResult.WIN pct < sp ∧
      rawResultPrice sp Direction.BUY TradeResult.LOSE pct < sp ∧
      sp < rawResultPrice sp Direction.SELL TradeResult.LOSE pct) ∧
    (sp ≤ fakeResultPrice sp Direction.BUY TradeResult.WIN sym pct ∧
      fakeResultPrice sp Direction.SELL TradeResult.WIN sym pct ≤ sp ∧
      fakeResultPrice sp Direction.BUY TradeResult.LOSE sym pct ≤ sp ∧
      sp ≤ fakeResultPrice sp Direction.SELL TradeResult.LOSE sym pct) ∧
    (∀ db ctx fe pct2,
      ((resolveTrade db ctx fe pct).trades.map fun t => (t.id, t.result))
        = ((resolveTrade db ctx fe pct2).trades.map fun t => (t.id, t.result))) := by
  have hgap := calcGap_pos sp pct
  refine ⟨?_, ?_, ?_⟩
  · unfold rawResultPrice
    refine ⟨?_, ?_, ?_, ?_⟩ <;> simp <;> linarith
  · unfold fakeResultPrice rawResultPrice
    refine ⟨?_, ?_, ?_, ?_⟩ <;> simp <;>
      first
      | { conv_lhs => rw [← hgrid]
          exact toFixedQ_mono _ (by linarith) }
      | { conv_rhs => rw [← hgrid]
          exact toFixedQ_mono _ (by linarith) }
  · intro db ctx fe pct2
    unfold resolveTrade
    dsimp only
    rw [List.map_map, List.map_map]
    apply List.map_congr_left
    intro t _
    by_cases ht : t.id = ctx.trade_id <;> simp [ht]

/-- Witness for C8's amended theorem at entry 65000 (BTC, on the 2-decimal grid)
with the draw at its lower bound. -/
theorem C8_result_price_cosmetic_witness :
    (65000 : ℚ) ≤ fakeResultPrice 65000 Direction.BUY TradeResult.WIN "BTC" (1 / 5000) :=
  ((C8_result_price_cosmetic 65000 (1 / 5000) "BTC"
    (by simp [toFixedQ, priceDecimals]; norm_num)).2.1).1

theorem getWithdrawal_setWithdrawalStatus (ws : List WithdrawalRow) (i : Nat)
    (st : ReqStatus) :
    getWithdrawal (setWithdrawalStatus ws i st) i
      = (getWithdrawal ws i).map fun w => { w with status := st } := by
  induction ws with
  | nil => rfl
  | cons w ws ih =>
    unfold setWithdrawalStatus at ih ⊢
    rw [List.map_cons]
    by_cases hw : w.id = i
    · rw [if_pos hw]
      unfold getWithdrawal
      rw [if_pos hw, if_pos (show ({ w with status := st } : WithdrawalRow).id = i from hw)]
      rfl
    · rw [if_neg hw]
      unfold getWithdrawal
      rw [if_neg hw, if_neg hw]
      exact ih

/-- C9: creating a withdrawal request mutates no balance (deduct-at-approval
design: the handler only checks the balance and inserts a pending row), and
rejecting a withdrawal is a pure status update — no refund, no balance effect —
which flips a pending request's row to `rejected` and answers success. -/
theorem C9_withdrawal_request_frame :
    (∀ db u coin amount address nid,
      (createWithdrawal db u coin amount address nid).2.balances = db.balances ∧
      (createWithdrawal db u coin amount address nid).2.earn = db.earn) ∧
    (∀ db i, (withdrawalStatusHandler db i ReqStatus.rejected).2.balances = db.balances) ∧
    (∀ db i w, getWithdrawal db.withdrawals i = some w → w.status = ReqStatus.pending →
      (withdrawalStatusHandler db i ReqStatus.rejected).1 = Except.ok () ∧
      getWithdrawal (withdrawalStatusHandler db i ReqStatus.rejected).2.withdrawals i
        = some { w with status := ReqStatus.rejected }) := by
  refine ⟨?_, ?_, ?_⟩
  · intro db u coin amount address nid
    unfold createWithdrawal
    split_ifs <;> exact ⟨rfl, rfl⟩
  · intro db i
    unfold withdrawalStatusHandler
    cases hw : getWithdrawal db.withdrawals i with
    | none =>
      dsimp only
      split_ifs <;> rfl
    | some w =>
      dsimp only
      split_ifs <;> rfl
  · intro db i w hw hpending
    unfold withdrawalStatusHandler
    rw [if_neg (show ¬(ReqStatus.rejected = ReqStatus.pending) by decide), hw]
    dsimp only
    rw [if_neg (not_not_intro hpending),
      if_neg (show ¬(ReqStatus.rejected = ReqStatus.approved) by decide)]
    exact ⟨rfl, by rw [getWithdrawal_setWithdrawalStatus, hw]; rfl⟩

/-- Witness for C9 at a concrete state: rejecting the pending withdrawal answers
success and flips only the status. -/
theorem C9_withdrawal_request_frame_witness :
    (withdrawalStatusHandler dbC9 1 ReqStatus.rejected).1 = Except.ok () ∧
    getWithdrawal (withdrawalStatusHandler dbC9 1 ReqStatus.rejected).2.withdrawals 1
      = some ⟨1, 1, "USDT", 40, "addr", ReqStatus.rejected⟩ :=
  C9_withdrawal_request_frame.2.2 dbC9 1 ⟨1, 1, "USDT", 40, "addr", ReqStatus.pending⟩
    (by decide) rfl

/-- C10: trade open clamps instead of rejecting: every successful open inserts a
row with effective stake `max 1 amount` and effective duration
`max 5 (min 120 duration)` and debits exactly the effective stake — so a stake
below 1 (including a negative one, which passes the truthiness guard) is raised
to 1 and still debited — and any effective duration outside {30, 60, 90, 120}
gets the default 30% payout rate at resolution. -/
theorem C10_trade_open_clamps :
    (∀ db u dir amount duration sym cp f nid,
      (tradeOpen db u dir amount duration sym cp f nid true).1 = Except.ok nid →
      (tradeOpen db u dir amount duration sym cp f nid true).2.trades
          = db.trades ++ [⟨nid, u, sym, dir, max 1 amount, max 5 (min 120 duration),
              toFixedQ (entryDecimals sym) (rawEntryPrice f cp sym),
              TradeResult.PENDING, 0, none⟩] ∧
        (tradeOpen db u dir amount duration sym cp f nid true).2.balances
          = addBal db.balances u "USDT" (-(max 1 amount))) ∧
    (∀ db u dir amount duration sym cp f nid, amount < 1 →
      (tradeOpen db u dir amount duration sym cp f nid true).1 = Except.ok nid →
      (tradeOpen db u dir amount duration sym cp f nid true).2.balances
          = addBal db.balances u "USDT" (-1)) ∧
    (∀ d : ℚ, d ∉ ([30, 60, 90, 120] : List ℚ) → profitRate d = 30 / 100) := by
  have hmain : ∀ db u dir (amount duration : ℚ) sym cp f nid,
      (tradeOpen db u dir amount duration sym cp f nid true).1 = Except.ok nid →
      (tradeOpen db u dir amount duration sym cp f nid true).2.trades
          = db.trades ++ [⟨nid, u, sym, dir, max 1 amount, max 5 (min 120 duration),
              toFixedQ (entryDecimals sym) (rawEntryPrice f cp sym),
              TradeResult.PENDING, 0, none⟩] ∧
        (tradeOpen db u dir amount duration sym cp f nid true).2.balances
          = addBal db.balances u "USDT" (-(max 1 amount)) := by
    intro db u dir amount duration sym cp f nid h
    unfold tradeOpen at h ⊢
    dsimp only at h ⊢
    split_ifs at h ⊢
    all_goals simp_all
  refine ⟨hmain, ?_, ?_⟩
  · intro db u dir amount duration sym cp f nid hlt h
    rw [(hmain db u dir amount duration sym cp f nid h).2,
      max_eq_left (le_of_lt hlt)]
  · intro d hd
    simp only [List.mem_cons, List.mem_singleton, not_or] at hd
    unfold profitRate FIXED_PROFIT_MAP
    rw [if_neg hd.1, if_neg hd.2.1, if_neg hd.2.2.1, if_neg hd.2.2.2.1]
    rfl

/-- Witness for C10 at a concrete request: a stake of -5 with duration 7 opens
successfully, is debited as 1 USDT, and duration 7 (within the clamp range)
resolves at the default 30% rate. -/
theorem C10_trade_open_clamps_witness :
    (tradeOpen dbC10 1 Direction.BUY (-5) 7 "BTC" none (some 65000) 1 true).2.balances
        = addBal dbC10.balances 1 "USDT" (-1) ∧
    profitRate 7 = 30 / 100 :=
  ⟨C10_trade_open_clamps.2.1 dbC10 1 Direction.BUY (-5) 7 "BTC" none (some 65000) 1
      (by norm_num)
      (by simp [tradeOpen, dbC10, ALLOWED_COINS, ALLOWED_FOREX, hasBal, getBal]
          norm_num),
    C10_trade_open_clamps.2.2 7 (by norm_num)⟩
